import Mathlib

/-!
Verification of the gosura filter inspector and SQL generation hook
(`pkg/inspector/filter_inspector.go` and the `sql` parse hook).

The JSON input domain is embedded as a mutual inductive (`Json` / `JsonArr` /
`JsonObj`) so that object key order is preserved, exactly as gjson's ForEach
iterates keys in source order.  JSON numbers are modelled by the fragment of
integer-valued numbers (the code's DefaultConvertValueFn converts a number to
an int whenever that is lossless, which is always the case on this fragment;
lossy floating point numbers are outside the model).
-/

namespace Gosura

/-- `strings.TrimSpace` (ASCII whitespace; the claims' inputs are ASCII). -/
def trimString (s : String) : String :=
  ⟨((s.data.dropWhile Char.isWhitespace).reverse.dropWhile Char.isWhitespace).reverse⟩

/-- The Go byte test `s[0] == c` on a non-empty string (false on empty). -/
def firstCharIs (s : String) (c : Char) : Bool :=
  match s.data with
  | [] => false
  | c' :: _ => c' = c

/-- `strings.ToUpper` (ASCII). -/
def toUpperString (s : String) : String := ⟨s.data.map Char.toUpper⟩

/-- `strings.ToLower` (ASCII). -/
def toLowerString (s : String) : String := ⟨s.data.map Char.toLower⟩

/-- `strings.Join sep`. -/
def joinSep (sep : String) : List String → String
  | [] => ""
  | [x] => x
  | x :: rest => x ++ sep ++ joinSep sep rest

/-- `strings.ReplaceAll s "." "_"` (the only ReplaceAll call in the source,
with a single-character pattern). -/
def replaceDotsWithUnderscores (s : String) : String :=
  ⟨s.data.map (fun c => if c = '.' then '_' else c)⟩

mutual

inductive Json where
  | null : Json
  | bool (b : Bool) : Json
  | num (n : Int) : Json
  | str (s : String) : Json
  | arr (elems : JsonArr) : Json
  | obj (fields : JsonObj) : Json
  deriving DecidableEq

inductive JsonArr where
  | nil : JsonArr
  | cons (hd : Json) (tl : JsonArr) : JsonArr
  deriving DecidableEq

inductive JsonObj where
  | nil : JsonObj
  | cons (key : String) (val : Json) (tl : JsonObj) : JsonObj
  deriving DecidableEq

end

/-- gjson `Result.Type.String()`: the name of the JSON kind, as used in the
`"array value expected, got %s"` error message. -/
def Json.typeName : Json → String
  | .null => "Null"
  | .bool false => "False"
  | .bool true => "True"
  | .num _ => "Number"
  | .str _ => "String"
  | .arr _ => "JSON"
  | .obj _ => "JSON"

/-- gjson `Result.IsArray`. -/
def Json.isArray : Json → Bool
  | .arr _ => true
  | _ => false

/-- gjson `Result.IsObject`. -/
def Json.isObject : Json → Bool
  | .obj _ => true
  | _ => false

/-- gjson `Result.Bool()`: True is true, a String is parsed with
`strconv.ParseBool(strings.ToLower(str))` (errors ignored, yielding false),
a Number is true when non-zero, every other kind is false. -/
def Json.resultBool : Json → Bool
  | .bool b => b
  | .str s =>
      let l := toLowerString s
      l = "1" || l = "t" || l = "true"
  | .num n => n != 0
  | _ => false

/-- gjson `Result.Str`: the string payload, empty for non-String results. -/
def Json.resultStr : Json → String
  | .str s => s
  | _ => ""

/-- First binding of `key` in an object, in key order -- gjson `Get` with a
plain key path. -/
def JsonObj.lookup : JsonObj → String → Option Json
  | .nil, _ => none
  | .cons k v t, key => if k = key then some v else t.lookup key

/-- gjson `Get` on an arbitrary result: only objects have keyed children. -/
def Json.get : Json → String → Option Json
  | .obj kvs, key => kvs.lookup key
  | _, _ => none

mutual

/-- Canonical serialization of a JSON value; stands in for gjson `Result.Raw`
(the source text of the subdocument). -/
def Json.render : Json → String
  | .null => "null"
  | .bool false => "false"
  | .bool true => "true"
  | .num n => toString n
  | .str s => "\x22" ++ s ++ "\x22"
  | .arr xs => "[" ++ xs.renderItems ++ "]"
  | .obj kvs => "\x7b" ++ kvs.renderItems ++ "\x7d"

def JsonArr.renderItems : JsonArr → String
  | .nil => ""
  | .cons x .nil => x.render
  | .cons x t => x.render ++ "," ++ t.renderItems

def JsonObj.renderItems : JsonObj → String
  | .nil => ""
  | .cons k v .nil => "\x22" ++ k ++ "\x22:" ++ v.render
  | .cons k v t => "\x22" ++ k ++ "\x22:" ++ v.render ++ "," ++ t.renderItems

end

/-- gjson `Result.String()`: empty for Null, "true"/"false" for booleans, the
decimal text for numbers, the payload for strings, the raw text for JSON. -/
def Json.resultString : Json → String
  | .null => ""
  | .bool false => "false"
  | .bool true => "true"
  | .num n => toString n
  | .str s => s
  | j => j.render

/-- The Go `any` values accumulated in `SQLParseHook.Params` (the image of the
value conversion function).  `raw` carries the JSON subdocument whose source
text (`Result.Raw`) the Go code stores; `decoded` carries the array whose
decoded `Result.Value()` the Go code stores.  The claims never inspect those
two payloads beyond equality. -/
inductive Param where
  | int (n : Int) : Param
  | str (s : String) : Param
  | bool (b : Bool) : Param
  | null : Param
  | raw (j : Json) : Param
  | decoded (j : Json) : Param
  deriving DecidableEq

/-- `DefaultConvertValueFn`: numbers convert to ints when lossless (always, on
the integer-number fragment modelled here), strings/booleans/null pass
through, non-array JSON yields its raw text, arrays yield their decoded
value. -/
def DefaultConvertValueFn : Json → Param
  | .num n => .int n
  | .str s => .str s
  | .bool b => .bool b
  | .null => .null
  | .arr xs => .decoded (.arr xs)
  | .obj kvs => .raw (.obj kvs)

/-- Go map lookup with the string zero value for a missing key:
`m[k]` yields `""` when `k` is absent. -/
def mapLookup (m : List (String × String)) (k : String) : String :=
  match m with
  | [] => ""
  | (k', v) :: rest => if k' = k then v else mapLookup rest k

/-- Go map assignment `m[k] = v` on an association list (overwrite the first
binding, or append a new one). -/
def mapInsert (m : List (String × String)) (k v : String) : List (String × String) :=
  match m with
  | [] => [(k, v)]
  | (k', v') :: rest => if k' = k then (k, v) :: rest else (k', v') :: mapInsert rest k v

/-- `ParseHookConfig`.  `ConvertValueFn` and `AggregateBuilderFn` are
function-valued configuration in the Go code; the embedding fixes them to the
defaults (`DefaultConvertValueFn`, `DefaultAggregateBuilder`), which is the
configuration every claim exercises.  Go maps are association lists here. -/
structure ParseHookConfig where
  OperatorMap : List (String × String)
  AggregateFnMap : List (String × String)
  NameDelimiter : String
  deriving DecidableEq

/-- `DefaultOperatorMap` from the source. -/
def DefaultOperatorMap : List (String × String) :=
  [("_eq", "="), ("_neq", "!="), ("_gt", ">"), ("_lt", "<"), ("_gte", ">="),
   ("_lte", "<="), ("_in", "IN"), ("_nin", "NOT IN"), ("_is_null", "IS NULL"),
   ("_like", "LIKE"), ("_nlike", "NOT LIKE"), ("_ilike", "ILIKE"), ("_nilike", "NOT ILIKE")]

/-- `DefaultAggregateFnMap` from the source. -/
def DefaultAggregateFnMap : List (String × String) :=
  [("count", "COUNT"), ("sum", "SUM"), ("avg", "AVG"), ("max", "MAX"),
   ("min", "MIN"), ("stddev", "STDDEV"), ("variance", "VARIANCE")]

def DefaultNameDelimiter : String := "\x22"

/-- `NewDefaultSQLParserHookConfig`. -/
def NewDefaultSQLParserHookConfig : ParseHookConfig :=
  { OperatorMap := DefaultOperatorMap
    AggregateFnMap := DefaultAggregateFnMap
    NameDelimiter := DefaultNameDelimiter }

inductive LogicalOperator where
  | AND : LogicalOperator
  | OR : LogicalOperator
  | NOT : LogicalOperator
  deriving DecidableEq

/-- The string carried by the Go `LogicalOperator` constants `opAND`, `opOR`,
`opNOT`. -/
def LogicalOperator.toStr : LogicalOperator → String
  | .AND => "AND"
  | .OR => "OR"
  | .NOT => "NOT"

structure LogicalGroup where
  operator : LogicalOperator
  operations : List String
  deriving DecidableEq

/-- The state of `SQLParseHook` (the current hook in `pkg/hooks/sql`).
`LogicalStack` keeps its most recently pushed group at the head.  The Go
field `CurrentGroup` is a pointer that, at every assignment site
(`pushLogicalGroup`, `popLogicalGroup`, and the initial nil), is kept equal
to the top of `LogicalStack` (nil when the stack is empty); the embedding
therefore represents it implicitly as the head of `LogicalStack`.
`Aggregates` is the Go map (association list), `AggregatesSlice` the
emission-order record. -/
structure SQLParseHook where
  Conditions : List String
  Params : List Param
  ParamIndex : Nat
  LogicalStack : List LogicalGroup
  OrderBy : List String
  Aggregates : List (String × String)
  AggregatesSlice : List String
  Config : ParseHookConfig
  Limit : Option Int
  Offset : Option Int
  deriving DecidableEq

/-- `NewSQLFilter` with a (non-nil) configuration: all accumulators empty,
`ParamIndex` starting at 1, no limit/offset. -/
def NewSQLFilter (config : ParseHookConfig) : SQLParseHook :=
  { Conditions := []
    Params := []
    ParamIndex := 1
    LogicalStack := []
    OrderBy := []
    Aggregates := []
    AggregatesSlice := []
    Config := config
    Limit := none
    Offset := none }

/-- `SQLParseHook.addCondition`: append to the current (innermost) logical
group when one is open, else to the top-level condition list. -/
def addCondition (h : SQLParseHook) (condition : String) : SQLParseHook :=
  match h.LogicalStack with
  | [] => { h with Conditions := h.Conditions ++ [condition] }
  | g :: rest => { h with LogicalStack := { g with operations := g.operations ++ [condition] } :: rest }

/-- `SQLParseHook.pushLogicalGroup`. -/
def pushLogicalGroup (h : SQLParseHook) (operator : LogicalOperator) : SQLParseHook :=
  { h with LogicalStack := { operator := operator, operations := [] } :: h.LogicalStack }

/-- `SQLParseHook.popLogicalGroup`.  Faithful to the source: when the stack is
empty or the current group has zero operations it returns nil WITHOUT
removing the group from the stack (the early `return nil` does not pop). -/
def popLogicalGroup (h : SQLParseHook) : Option LogicalGroup × SQLParseHook :=
  match h.LogicalStack with
  | [] => (none, h)
  | g :: rest =>
    if g.operations = [] then (none, h)
    else (some g, { h with LogicalStack := rest })

/-- `SQLParseHook.getOperator` (configuration present, as built by
`NewSQLFilter`). -/
def getOperator (h : SQLParseHook) (op : String) : String :=
  mapLookup h.Config.OperatorMap op

/-- `SQLParseHook.getColumnAlias`: trim the field, wrap it in the delimiter,
join the path with a double underscore, and qualify with the wrapped joined
path only when that joined path is non-empty. -/
def getColumnAlias (h : SQLParseHook) (field : String) (path : List String) : String :=
  let d := h.Config.NameDelimiter
  let f := d ++ trimString field ++ d
  let fullPath := joinSep "__" path
  if fullPath ≠ "" then d ++ fullPath ++ d ++ "." ++ f else f

/-- The parameter-binding loop inside `OnComparison`'s `_in`/`_nin` case: for
each element append the converted value to `Params`, record the placeholder
`$ParamIndex`, and increment `ParamIndex`. -/
def bindArrayParams (h : SQLParseHook) : JsonArr → SQLParseHook × List String
  | .nil => (h, [])
  | .cons v rest =>
    let h' := { h with Params := h.Params ++ [DefaultConvertValueFn v], ParamIndex := h.ParamIndex + 1 }
    let (h'', ps) := bindArrayParams h' rest
    (h'', ("$" ++ toString h.ParamIndex) :: ps)

/-- `SQLParseHook.OnComparison`. -/
def OnComparison (h : SQLParseHook) (field operator : String) (value : Json) (path : List String) :
    Except String SQLParseHook :=
  let colName := getColumnAlias h field path
  if operator = "_is_null" then
    if value.resultBool then .ok (addCondition h (colName ++ " IS NULL"))
    else .ok (addCondition h (colName ++ " IS NOT NULL"))
  else if operator = "_in" ∨ operator = "_nin" then
    match value with
    | .arr elems =>
      let (h', placeholders) := bindArrayParams h elems
      let sqlOp := getOperator h' operator
      .ok (addCondition h' (colName ++ " " ++ sqlOp ++ " (" ++ joinSep ", " placeholders ++ ")"))
    | _ => .error ("array value expected, got " ++ value.typeName)
  else
    let sqlOp := getOperator h operator
    if sqlOp ≠ "" then
      let h' := { h with Params := h.Params ++ [DefaultConvertValueFn value] }
      let h'' := addCondition h' (colName ++ " " ++ sqlOp ++ " $" ++ toString h'.ParamIndex)
      .ok { h'' with ParamIndex := h''.ParamIndex + 1 }
    else .error ("unsupported operator: " ++ operator)

/-- `SQLParseHook.OnLogicalGroupStart`. -/
def OnLogicalGroupStart (h : SQLParseHook) (operator : String) : Except String SQLParseHook :=
  if operator = "_and" then .ok (pushLogicalGroup h .AND)
  else if operator = "_or" then .ok (pushLogicalGroup h .OR)
  else if operator = "_not" then .ok (pushLogicalGroup h .NOT)
  else .error ("unsupported logical operator: " ++ operator)

/-- `SQLParseHook.OnLogicalGroupEnd` (its `operator`/`node`/`path` arguments
are unused in the source).  A nil pop is discarded; otherwise operations are
joined with the group's operator (AND for a NOT group), wrapped in
parentheses only when there is more than one, and prefixed with `NOT ` for a
NOT group. -/
def OnLogicalGroupEnd (h : SQLParseHook) : SQLParseHook :=
  match popLogicalGroup h with
  | (none, h') => h'
  | (some group, h') =>
    let joinOp := if group.operator ≠ .NOT then group.operator else .AND
    let condition := joinSep (" " ++ joinOp.toStr ++ " ") group.operations
    let condition := if group.operations.length > 1 then "(" ++ condition ++ ")" else condition
    let condition := if group.operator = .NOT then "NOT " ++ condition else condition
    addCondition h' condition

/-- `SQLParseHook.OnOrderBy`. -/
def OnOrderBy (h : SQLParseHook) (field direction : String) (path : List String) : SQLParseHook :=
  { h with OrderBy := h.OrderBy ++ [getColumnAlias h field path ++ " " ++ direction] }

/-- `DefaultAggregateBuilder`: `options` is `none` when the Go code passes a
zero `gjson.Result` (`Exists()` false).  Returns `(expr, alias)`. -/
def DefaultAggregateBuilder (h : SQLParseHook) (function sqlFunction field : String)
    (options : Option Json) : Except String (String × String) :=
  let hasDistinct :=
    match options with
    | some o => (((o.get "distinct").map Json.resultBool).getD false)
    | none => false
  if hasDistinct = true ∧ field = "*" then
    .error "DISTINCT can only be used with specific fields, not '*'"
  else
    let distinct := if hasDistinct then "DISTINCT " else ""
    let fieldAlias := if field ≠ "*" then getColumnAlias h field [] else "*"
    let resultAlias := if field ≠ "*" then function ++ "_" ++ replaceDotsWithUnderscores field else function
    .ok (sqlFunction ++ "(" ++ distinct ++ fieldAlias ++ ")", resultAlias)

/-- `SQLParseHook.OnAggregateField` with the default builder (no custom
`AggregateBuilderFn` configured). -/
def OnAggregateField (h : SQLParseHook) (function field : String) (options : Option Json) :
    Except String SQLParseHook :=
  let sqlFn := mapLookup h.Config.AggregateFnMap function
  if sqlFn = "" then .error ("unsupported aggregate function: " ++ function)
  else
    match DefaultAggregateBuilder h function sqlFn field options with
    | .error e => .error e
    | .ok (expr, resAlias) =>
      .ok { h with Aggregates := mapInsert h.Aggregates resAlias expr
                   AggregatesSlice := h.AggregatesSlice ++ [resAlias] }

/-- `SQLParseHook.OnLimit`. -/
def OnLimit (h : SQLParseHook) (limit : Int) : SQLParseHook :=
  { h with Limit := some limit }

/-- `SQLParseHook.OnOffset`. -/
def OnOffset (h : SQLParseHook) (offset : Int) : SQLParseHook :=
  { h with Offset := some offset }

/-- `HasuraInspector.getStrPath`: the dotted error-location path. -/
def getStrPath (src : String) (path : List String) : String :=
  joinSep "." (src :: path)

/-- `HasuraInspector.buildPath`: copy `path` and append each element after
trimming, skipping blank elements. -/
def buildPath (path : List String) (elements : List String) : List String :=
  path ++ (elements.map trimString).filter (fun e => e ≠ "")

/-- `HasuraInspector.getOrderDirection`: trim, uppercase, accept only
ASC/DESC. -/
def getOrderDirection (str : String) : Except String String :=
  let n := toUpperString (trimString str)
  if n = "ASC" then .ok "ASC"
  else if n = "DESC" then .ok "DESC"
  else .error ("invalid order_by direction: " ++ str)

mutual

/-- `HasuraInspector.processWhereNode` driving the single registered
`SQLParseHook` (whose `OnNestedNodeStart`/`OnNestedNodeEnd` are no-ops).
Arrays recurse element-wise with the same field and path; non-objects fail;
objects iterate keys in source order. -/
def processWhereNode (st : SQLParseHook) (field : String) (node : Json) (path : List String) :
    Except String SQLParseHook :=
  match node with
  | .arr xs => processWhereNodeArr st field xs path
  | .obj kvs => processWhereNodeObj st field kvs path
  | _ => .error ("invalid filter node: " ++ getStrPath "where" path)

def processWhereNodeArr (st : SQLParseHook) (field : String) (xs : JsonArr) (path : List String) :
    Except String SQLParseHook :=
  match xs with
  | .nil => .ok st
  | .cons x rest =>
    match processWhereNode st field x path with
    | .error e => .error e
    | .ok st' => processWhereNodeArr st' field rest path

/-- The body of the `node.ForEach` callback in `processWhereNode`, iterated
over the object's key/value pairs (a `false` return, i.e. an error, stops the
iteration). -/
def processWhereNodeObj (st : SQLParseHook) (field : String) (kvs : JsonObj) (path : List String) :
    Except String SQLParseHook :=
  match kvs with
  | .nil => .ok st
  | .cons key value rest =>
    if trimString key = "" then .error ("empty key found in path: " ++ getStrPath "where" path)
    else if firstCharIs key '_' then
      let previousPath := if path.length > 0 then buildPath path.dropLast [""] else path
      if key = "_and" ∨ key = "_or" ∨ key = "_not" then
        match OnLogicalGroupStart st key with
        | .error e => .error e
        | .ok st' =>
          match processWhereNode st' field value previousPath with
          | .error e => .error e
          | .ok st'' => processWhereNodeObj (OnLogicalGroupEnd st'') field rest path
      else
        match OnComparison st field key value previousPath with
        | .error e => .error e
        | .ok st' => processWhereNodeObj st' field rest path
    else if value.isObject then
      match processWhereNode st key value (buildPath path [key]) with
      | .error e => .error e
      | .ok st' => processWhereNodeObj st' field rest path
    else
      match (if value = .null then OnComparison st key "_is_null" (.str "true") path
             else OnComparison st key "_eq" value path) with
      | .error e => .error e
      | .ok st' => processWhereNodeObj st' field rest path

end

mutual

/-- `HasuraInspector.processOrderByNode` driving the `SQLParseHook`. -/
def processOrderByNode (st : SQLParseHook) (field : String) (node : Json) (path : List String) :
    Except String SQLParseHook :=
  match node with
  | .arr xs => processOrderByNodeArr st field xs path
  | .obj kvs => processOrderByNodeObj st field kvs path
  | _ => .error ("invalid order_by node: " ++ getStrPath "order_by" path)

def processOrderByNodeArr (st : SQLParseHook) (field : String) (xs : JsonArr) (path : List String) :
    Except String SQLParseHook :=
  match xs with
  | .nil => .ok st
  | .cons x rest =>
    match processOrderByNode st field x path with
    | .error e => .error e
    | .ok st' => processOrderByNodeArr st' field rest path

def processOrderByNodeObj (st : SQLParseHook) (field : String) (kvs : JsonObj) (path : List String) :
    Except String SQLParseHook :=
  match kvs with
  | .nil => .ok st
  | .cons key value rest =>
    if trimString key = "" then .error ("empty key found in path: " ++ getStrPath "order_by" path)
    else if value.isObject then
      match processOrderByNode st key value (buildPath path [key]) with
      | .error e => .error e
      | .ok st' => processOrderByNodeObj st' field rest path
    else
      match getOrderDirection value.resultStr with
      | .error e => .error e
      | .ok direction => processOrderByNodeObj (OnOrderBy st key direction path) field rest path

end

/-- `JsonArr` as a Lean list (used to state list-level facts about arrays). -/
def JsonArr.toList : JsonArr → List Json
  | .nil => []
  | .cons x t => x :: t.toList

/-- Build a `JsonArr` from a Lean list (notation helper for writing concrete
filters). -/
def JsonArr.ofList : List Json → JsonArr
  | [] => .nil
  | x :: t => .cons x (JsonArr.ofList t)

/-- Build a `JsonObj` from a Lean association list (notation helper). -/
def JsonObj.ofList : List (String × Json) → JsonObj
  | [] => .nil
  | (k, v) :: t => .cons k v (JsonObj.ofList t)

/-- A JSON array literal. -/
def jarr (l : List Json) : Json := .arr (JsonArr.ofList l)

/-- A JSON object literal (keys in source order). -/
def jobj (l : List (String × Json)) : Json := .obj (JsonObj.ofList l)

/-- `HasuraInspector.parseAggregateValue`: a string is a single field, a
non-empty all-string array is several fields, an object supplies advanced
options with a `field` key defaulting to `"*"`; anything else is invalid
(`none`). -/
def parseAggregateValue (value : Json) : Option (List String × Option Json) :=
  match value with
  | .str s => some ([s], none)
  | .arr xs =>
    let elems := xs.toList
    if elems.isEmpty then none
    else if elems.all (fun v => v.isArray = false ∧ v.isObject = false ∧ v.typeName = "String") then
      some (elems.map Json.resultString, none)
    else none
  | .obj kvs =>
    let field := ((kvs.lookup "field").map Json.resultString).getD ""
    some ([if field = "" then "*" else field], some (.obj kvs))
  | _ => none

/-- The per-field loop inside `processAggregateNode`. -/
def processAggregateFields (st : SQLParseHook) (function : String) (fields : List String)
    (options : Option Json) : Except String SQLParseHook :=
  match fields with
  | [] => .ok st
  | f :: rest =>
    match OnAggregateField st function f options with
    | .error e => .error e
    | .ok st' => processAggregateFields st' function rest options

/-- The `node.ForEach` body of `processAggregateNode`. -/
def processAggregateNodeObj (st : SQLParseHook) (kvs : JsonObj) : Except String SQLParseHook :=
  match kvs with
  | .nil => .ok st
  | .cons k value rest =>
    if trimString k = "" then .error "empty aggregate function name"
    else
      match parseAggregateValue value with
      | none => .error ("invalid value for aggregate function " ++ k)
      | some (fields, options) =>
        match processAggregateFields st k fields options with
        | .error e => .error e
        | .ok st' => processAggregateNodeObj st' rest

/-- `HasuraInspector.processAggregateNode`. -/
def processAggregateNode (st : SQLParseHook) (node : Json) : Except String SQLParseHook :=
  match node with
  | .obj kvs => processAggregateNodeObj st kvs
  | _ => .error "invalid aggregate node: must be an object"

/-- `HasuraInspector.Inspect` threading a given hook state: the `where`
section, then `aggregate`, then `order_by`, each only when present. -/
def InspectWith (st : SQLParseHook) (filter : Json) : Except String SQLParseHook :=
  match (match filter.get "where" with
         | some w => processWhereNode st "" w []
         | none => .ok st) with
  | .error e => .error e
  | .ok st' =>
    match (match filter.get "aggregate" with
           | some a => processAggregateNode st' a
           | none => .ok st') with
    | .error e => .error e
    | .ok st'' =>
      match filter.get "order_by" with
      | some o => processOrderByNode st'' "" o []
      | none => .ok st''

/-- One whole translation: a fresh hook (`NewSQLFilter config`) inspected over
`filter`, as the spec's single-use lifecycle prescribes. -/
def Inspect (config : ParseHookConfig) (filter : Json) : Except String SQLParseHook :=
  InspectWith (NewSQLFilter config) filter

/-- The rendered WHERE text: the hook's top-level conditions joined with
` AND ` (the join performed by `SQLQueryBuilder.Build` and by the test
utilities). -/
def whereText (h : SQLParseHook) : String :=
  joinSep " AND " h.Conditions

/-- `SQLParseHook.GetQueryBuilder` / `SQLQueryBuilder` state. -/
structure SQLQueryBuilder where
  Aggregates : List (String × String)
  AggregatesSlice : List String
  Conditions : List String
  OrderBy : List String
  Limit : Option Int
  Offset : Option Int
  Params : List Param
  deriving DecidableEq

def GetQueryBuilder (h : SQLParseHook) : SQLQueryBuilder :=
  { Aggregates := h.Aggregates
    AggregatesSlice := h.AggregatesSlice
    Conditions := h.Conditions
    OrderBy := h.OrderBy
    Limit := h.Limit
    Offset := h.Offset
    Params := h.Params }

/-- `SQLQueryBuilder.Build`. -/
def SQLQueryBuilder.Build (h : SQLQueryBuilder) (entity : String) (columns : List String) : String :=
  let selectedColumns : List String :=
    (if h.Aggregates.length > 0 then
      h.AggregatesSlice.map (fun a => mapLookup h.Aggregates a ++ " AS " ++ a)
    else []) ++ columns
  let selectedColumns := if selectedColumns.isEmpty then ["*"] else selectedColumns
  "SELECT " ++ joinSep ", " selectedColumns ++ " FROM " ++ entity ++
  (if h.Conditions.length > 0 then " WHERE " ++ joinSep " AND " h.Conditions else "") ++
  (if h.Aggregates.length > 0 ∧ columns.length > 0 then
    " GROUP BY " ++ joinSep ", " columns else "") ++
  (if h.OrderBy.length > 0 then " ORDER BY " ++ joinSep ", " h.OrderBy else "") ++
  (match h.Limit with | some l => " LIMIT " ++ toString l | none => "") ++
  (match h.Offset with | some o => " OFFSET " ++ toString o | none => "")

/-- Placeholder count: the number of `$` characters in a rendered text
(parameter placeholders are the only source of `$` in the claims'
filters). -/
def countChar (s : String) (c : Char) : Nat :=
  s.data.count c

/-- Concatenation of two objects' field lists (used to state that extra
top-level filter keys are ignored). -/
def JsonObj.append : JsonObj → JsonObj → JsonObj
  | .nil, b => b
  | .cons k v t, b => .cons k v (t.append b)

/-- The qualified-column formula exactly as claim C4 words it: the field
wrapped in the dialect's name delimiter, the path segments joined with a
double underscore and the joined path wrapped in the delimiter, and the
field prefixed with the quoted joined path plus a dot only when the path is
non-empty.  (No trimming: this is the claim's wording, to be compared with
`getColumnAlias` from the source.) -/
def claimQualifiedName (d field : String) (path : List String) : String :=
  let f := d ++ field ++ d
  if path = [] then f else d ++ joinSep "__" path ++ d ++ "." ++ f

deriving instance DecidableEq for Except

/-! ## Theorems -/

/-- Claim C1 (code bug, evaluation at the failing input): for the filter
`\x7b"where":\x7b"_and":[],"age":18\x7d\x7d` the translation succeeds, but
`popLogicalGroup` returns nil for the empty `_and` group WITHOUT popping it,
so the stale group stays current and swallows the sibling condition: the
rendered WHERE text is empty and the bound parameter list is `[18]`, with
the lost condition sitting inside the never-flushed stack group.  The same
sibling without the empty group renders `"age" = $1`.  This contradicts the
claim that an empty group contributes nothing and leaves sibling conditions
intact. -/
theorem C1_empty_group_not_discarded_eval :
    (Inspect NewDefaultSQLParserHookConfig
        (jobj [("where", jobj [("_and", jarr []), ("age", .num 18)])])).map
        (fun h => (whereText h, h.Params, h.LogicalStack)) =
      .ok ("", [.int 18], [{ operator := .AND, operations := ["\"age\" = $1"] }]) ∧
    (Inspect NewDefaultSQLParserHookConfig (jobj [("where", jobj [("age", .num 18)])])).map
        (fun h => (whereText h, h.Params)) = .ok ("\"age\" = $1", [.int 18]) :=
  ⟨by decide, by decide⟩

/-- Claim C2 (code bug, evaluation at the failing input): the translation of
`\x7b"where":\x7b"_and":[],"age":18\x7d\x7d` succeeds with zero positional
placeholders in the rendered WHERE text (and in the full built SELECT) but a
parameter list of length one, violating the claimed placeholder/parameter
correspondence. -/
theorem C2_placeholder_count_mismatch_eval :
    (Inspect NewDefaultSQLParserHookConfig
        (jobj [("where", jobj [("_and", jarr []), ("age", .num 18)])])).map
        (fun h => (countChar (whereText h) '$', h.Params.length)) = .ok (0, 1) ∧
    (Inspect NewDefaultSQLParserHookConfig
        (jobj [("where", jobj [("_and", jarr []), ("age", .num 18)])])).map
        (fun h => (GetQueryBuilder h).Build "t" []) = .ok "SELECT * FROM t" :=
  ⟨by decide, by decide⟩

/-- Claim C3 (confirmed): `\x7b"where":\x7b"_and":[]\x7d\x7d` and
`\x7b"where":\x7b"_not":\x7b"_and":[\x7b"_or":[]\x7d]\x7d\x7d\x7d` both
translate successfully to an empty WHERE clause with an empty parameter
list. -/
theorem C3_empty_group_suppression :
    (Inspect NewDefaultSQLParserHookConfig
        (jobj [("where", jobj [("_and", jarr [])])])).map
        (fun h => (whereText h, h.Params)) = .ok ("", []) ∧
    (Inspect NewDefaultSQLParserHookConfig
        (jobj [("where", jobj [("_not", jobj [("_and", jarr [jobj [("_or", jarr [])]])])])])).map
        (fun h => (whereText h, h.Params)) = .ok ("", []) :=
  ⟨by decide, by decide⟩

/-- A non-empty left operand makes a string concatenation non-empty. -/
theorem append_ne_empty_left (x y : String) (hx : x ≠ "") : x ++ y ≠ "" := by
  intro h
  apply hx
  have hlen := congrArg String.length h
  rw [String.length_append] at hlen
  have h0 : ("" : String).length = 0 := rfl
  have : x.length = 0 := by omega
  cases x with
  | mk l =>
    cases l with
    | nil => rfl
    | cons c t => simp [String.length] at this

/-- `joinSep` of a list whose head is non-empty is non-empty. -/
theorem joinSep_cons_ne_empty (sep x : String) (xs : List String) (hx : x ≠ "") :
    joinSep sep (x :: xs) ≠ "" := by
  cases xs with
  | nil => simpa [joinSep] using hx
  | cons y t => exact append_ne_empty_left _ _ (append_ne_empty_left _ _ hx)

/-- Claim C4 counterexample: the where filter with field `" age "` (scalar
sugar comparison with empty path) renders the column as `"age"`, but the
claim's own formula (`claimQualifiedName`, the field wrapped as-is in the
delimiter) demands `" age "` -- so the claim as stated is false: the code
trims the field first. -/
theorem C4_untrimmed_field_counterexample :
    (Inspect NewDefaultSQLParserHookConfig
        (jobj [("where", jobj [(" age ", .num 18)])])).map whereText = .ok "\"age\" = $1" ∧
    claimQualifiedName "\"" " age " [] ++ " = $1" = "\" age \" = $1" ∧
    ("\"age\" = $1" : String) ≠ "\" age \" = $1" :=
  ⟨by decide, by decide, by decide⟩

/-- Claim C4, amended (corrected): for every comparison the rendered
qualified column is the claim's formula applied to the TRIMMED field --
`getColumnAlias` agrees with `claimQualifiedName` on the trimmed field for
every path without blank segments (the only paths the traversal builds,
since `buildPath` drops blank segments) -- and the nested filter renders its
column as `"user__profile"."name"`. -/
theorem C4_qualified_column_amended :
    (∀ (h : SQLParseHook) (field : String) (path : List String), (∀ s ∈ path, s ≠ "") →
        getColumnAlias h field path = claimQualifiedName h.Config.NameDelimiter (trimString field) path) ∧
    (Inspect NewDefaultSQLParserHookConfig
        (jobj [("where", jobj [("user", jobj [("profile", jobj [("name", jobj [("_eq", .str "X")])])])])])).map
        whereText = .ok "\"user__profile\".\"name\" = $1" := by
  refine ⟨?_, by decide⟩
  intro h field path hp
  unfold getColumnAlias claimQualifiedName
  cases path with
  | nil => simp [joinSep]
  | cons x xs =>
    have hx : x ≠ "" := hp x (by simp)
    have hne : joinSep "__" (x :: xs) ≠ "" := joinSep_cons_ne_empty _ _ _ hx
    simp [hne]

/-- Witness for the amended claim C4 at a concrete comparison. -/
theorem C4_qualified_column_amended_witness :
    getColumnAlias (NewSQLFilter NewDefaultSQLParserHookConfig) "name" ["user", "profile"] =
      claimQualifiedName "\"" "name" ["user", "profile"] :=
  C4_qualified_column_amended.1 (NewSQLFilter NewDefaultSQLParserHookConfig) "name"
    ["user", "profile"] (by decide)

/-- Claim C5 (confirmed): a logical group closing with at least one operation
pops the stack, joins its operations with its own operator (AND for a NOT
group), wraps in parentheses only when there is more than one operation,
prefixes `NOT ` for a NOT group, and appends the result into the enclosing
scope; the two NOT filters render `NOT "age" > $1` (no parentheses) and
`NOT ("age" > $1 AND "name" LIKE $2)`. -/
theorem C5_group_close_rendering :
    (∀ (h : SQLParseHook) (g : LogicalGroup) (rest : List LogicalGroup),
        h.LogicalStack = g :: rest → g.operations ≠ [] →
        OnLogicalGroupEnd h =
          addCondition { h with LogicalStack := rest }
            (let joined := joinSep
              (" " ++ (if g.operator = .NOT then LogicalOperator.AND else g.operator).toStr ++ " ")
              g.operations
             let wrapped := if g.operations.length > 1 then "(" ++ joined ++ ")" else joined
             if g.operator = .NOT then "NOT " ++ wrapped else wrapped)) ∧
    (Inspect NewDefaultSQLParserHookConfig
        (jobj [("where", jobj [("_not", jobj [("age", jobj [("_gt", .num 18)])])])])).map
        (fun h => (whereText h, h.Params)) = .ok ("NOT \"age\" > $1", [.int 18]) ∧
    (Inspect NewDefaultSQLParserHookConfig
        (jobj [("where", jobj [("_not", jobj [("age", jobj [("_gt", .num 18)]),
                                              ("name", jobj [("_like", .str "%John%")])])])])).map
        (fun h => (whereText h, h.Params)) =
      .ok ("NOT (\"age\" > $1 AND \"name\" LIKE $2)", [.int 18, .str "%John%"]) := by
  refine ⟨?_, by decide, by decide⟩
  intro h g rest hstack hops
  obtain ⟨op, ops⟩ := g
  unfold OnLogicalGroupEnd popLogicalGroup
  rw [hstack]
  simp only [if_neg hops]
  cases op <;> simp

/-- Witness for claim C5 at a concrete single-operation NOT group. -/
theorem C5_group_close_rendering_witness :
    OnLogicalGroupEnd { NewSQLFilter NewDefaultSQLParserHookConfig with
        LogicalStack := [{ operator := .NOT, operations := ["\"age\" > $1"] }] } =
      addCondition (NewSQLFilter NewDefaultSQLParserHookConfig) "NOT \"age\" > $1" :=
  C5_group_close_rendering.1
    { NewSQLFilter NewDefaultSQLParserHookConfig with
        LogicalStack := [{ operator := .NOT, operations := ["\"age\" > $1"] }] }
    { operator := .NOT, operations := ["\"age\" > $1"] } [] rfl (by decide)

/-- `buildPath` with one non-blank element appends its trimmed form. -/
theorem buildPath_single (path : List String) (key : String) (hk : trimString key ≠ "") :
    buildPath path [key] = path ++ [trimString key] := by
  simp [buildPath, hk]

/-- `buildPath` with only a blank element is the identity (the previousPath
computation `buildPath(path[:len-1], "")`). -/
theorem buildPath_blank (path : List String) : buildPath path [""] = path := by
  simp [buildPath]
  decide

/-- For the `_is_null` operator only the truthiness of the value matters:
the string `"true"` (emitted by the inspector's null sugar) and the boolean
`true` produce the same condition. -/
theorem OnComparison_is_null_truthy (h : SQLParseHook) (field : String) (path : List String) :
    OnComparison h field "_is_null" (.str "true") path =
      OnComparison h field "_is_null" (.bool true) path := by
  simp [OnComparison, (by decide : Json.resultBool (.str "true") = true),
        (by decide : Json.resultBool (.bool true) = true)]

/-- Claim C6 (confirmed): in the where section a non-underscore key with a
scalar value is sugar for the corresponding comparison object: a non-null
scalar behaves exactly like `\x7bkey:\x7b"_eq":value\x7d\x7d` and a null
value exactly like `\x7bkey:\x7b"_is_null":true\x7d\x7d`, in any state, path
and sibling context; in particular the two concrete filter pairs translate
to identical hook states. -/
theorem C6_scalar_sugar :
    (∀ (st : SQLParseHook) (field key : String) (v : Json) (path : List String) (rest : JsonObj),
        trimString key ≠ "" → firstCharIs key '_' = false →
        v.isObject = false → v.isArray = false → v ≠ .null →
        processWhereNodeObj st field (.cons key v rest) path =
          processWhereNodeObj st field (.cons key (.obj (.cons "_eq" v .nil)) rest) path) ∧
    (∀ (st : SQLParseHook) (field key : String) (path : List String) (rest : JsonObj),
        trimString key ≠ "" → firstCharIs key '_' = false →
        processWhereNodeObj st field (.cons key .null rest) path =
          processWhereNodeObj st field (.cons key (.obj (.cons "_is_null" (.bool true) .nil)) rest) path) ∧
    Inspect NewDefaultSQLParserHookConfig (jobj [("where", jobj [("age", .num 18)])]) =
      Inspect NewDefaultSQLParserHookConfig (jobj [("where", jobj [("age", jobj [("_eq", .num 18)])])]) ∧
    Inspect NewDefaultSQLParserHookConfig (jobj [("where", jobj [("age", .null)])]) =
      Inspect NewDefaultSQLParserHookConfig (jobj [("where", jobj [("age", jobj [("_is_null", .bool true)])])]) := by
  refine ⟨?_, ?_, by decide, by decide⟩
  · intro st field key v path rest htrim hfc hobj harr hnull
    have e1 : trimString "_eq" ≠ "" := by decide
    have e2 : firstCharIs "_eq" '_' = true := by decide
    have e3 : ¬("_eq" = "_and" ∨ "_eq" = "_or" ∨ "_eq" = "_not") := by decide
    have e4 : ∀ kvs, (Json.obj kvs).isObject = true := fun _ => rfl
    conv_lhs => rw [processWhereNodeObj]
    conv_rhs => rw [processWhereNodeObj, processWhereNode, processWhereNodeObj]
    rw [buildPath_single path key htrim]
    have e5 : (path ++ [trimString key]).length > 0 := by simp
    simp only [htrim, hfc, hobj, hnull, e1, e2, e3, e4, e5, Bool.false_eq_true,
      if_false, if_true, ite_true, ite_false,
      List.dropLast_concat, buildPath_blank]
    cases OnComparison st key "_eq" v path <;> simp [processWhereNodeObj]
  · intro st field key path rest htrim hfc
    have e1 : trimString "_is_null" ≠ "" := by decide
    have e2 : firstCharIs "_is_null" '_' = true := by decide
    have e3 : ¬("_is_null" = "_and" ∨ "_is_null" = "_or" ∨ "_is_null" = "_not") := by decide
    have e4 : ∀ kvs, (Json.obj kvs).isObject = true := fun _ => rfl
    have e6 : (Json.null).isObject = false := rfl
    conv_lhs => rw [processWhereNodeObj]
    conv_rhs => rw [processWhereNodeObj, processWhereNode, processWhereNodeObj]
    rw [buildPath_single path key htrim]
    have e5 : (path ++ [trimString key]).length > 0 := by simp
    simp only [htrim, hfc, e1, e2, e3, e4, e5, e6, Bool.false_eq_true, eq_self_iff_true,
      if_false, if_true, ite_true, ite_false, List.dropLast_concat, buildPath_blank]
    rw [OnComparison_is_null_truthy]
    cases OnComparison st key "_is_null" (.bool true) path <;> simp [processWhereNodeObj]

/-- Witness for claim C6 at a concrete state, key and sibling context. -/
theorem C6_scalar_sugar_witness :
    processWhereNodeObj (NewSQLFilter NewDefaultSQLParserHookConfig) "" (.cons "age" (.num 18) .nil) [] =
      processWhereNodeObj (NewSQLFilter NewDefaultSQLParserHookConfig) ""
        (.cons "age" (.obj (.cons "_eq" (.num 18) .nil)) .nil) [] :=
  C6_scalar_sugar.1 (NewSQLFilter NewDefaultSQLParserHookConfig) "" "age" (.num 18) [] .nil
    (by decide) (by decide) (by decide) (by decide) (by decide)

/-- The `_in`/`_nin` binding loop: one parameter per element, placeholders
`$ParamIndex, $ParamIndex+1, ...` in order. -/
theorem bindArrayParams_spec : ∀ (xs : JsonArr) (h : SQLParseHook),
    bindArrayParams h xs =
      ({ h with Params := h.Params ++ xs.toList.map DefaultConvertValueFn,
                ParamIndex := h.ParamIndex + xs.toList.length },
       (List.range xs.toList.length).map (fun i => "$" ++ toString (h.ParamIndex + i)))
  | .nil, h => by simp [bindArrayParams, JsonArr.toList]
  | .cons v rest, h => by
    obtain ⟨c, p, pi, ls, ob, ag, ags, cfg, lim, off⟩ := h
    rw [bindArrayParams, bindArrayParams_spec rest]
    simp [JsonArr.toList, List.range_succ_eq_map, List.map_map, Function.comp]
    refine ⟨by omega, fun a _ => ?_⟩
    have hi : pi + 1 + a = pi + (a + 1) := by omega
    rw [hi]

/-- Claim C7 (confirmed): for `_in`/`_nin`, a non-array value fails with the
array-value-expected error; an array binds exactly one parameter per element
and renders `col OP ($a, $b, ...)` with consecutive placeholders; the
concrete `_in` filter renders `"age" IN ($1, $2, $3)` with three parameters
and the non-array `_nin` filter fails. -/
theorem C7_in_nin_behavior :
    (∀ (st : SQLParseHook) (field op : String) (value : Json) (path : List String),
        op = "_in" ∨ op = "_nin" →
        (value.isArray = false →
          OnComparison st field op value path =
            .error ("array value expected, got " ++ value.typeName)) ∧
        (∀ xs, value = .arr xs →
          OnComparison st field op value path =
            .ok (addCondition
              { st with Params := st.Params ++ xs.toList.map DefaultConvertValueFn,
                        ParamIndex := st.ParamIndex + xs.toList.length }
              (getColumnAlias st field path ++ " " ++ getOperator st op ++ " (" ++
               joinSep ", "
                 ((List.range xs.toList.length).map (fun i => "$" ++ toString (st.ParamIndex + i))) ++
               ")")))) ∧
    (Inspect NewDefaultSQLParserHookConfig
        (jobj [("where", jobj [("age", jobj [("_in", jarr [.num 18, .num 20, .num 22])])])])).map
        (fun h => (whereText h, h.Params)) =
      .ok ("\"age\" IN ($1, $2, $3)", [.int 18, .int 20, .int 22]) ∧
    Inspect NewDefaultSQLParserHookConfig
        (jobj [("where", jobj [("age", jobj [("_nin", .str "invalid array")])])]) =
      .error "array value expected, got String" := by
  refine ⟨?_, by decide, by decide⟩
  intro st field op value path hop
  have hnn : op ≠ "_is_null" := by rcases hop with h | h <;> subst h <;> decide
  constructor
  · intro harr
    rw [OnComparison, if_neg hnn, if_pos hop]
    cases value <;> simp_all [Json.isArray]
  · intro xs hv
    subst hv
    rw [OnComparison, if_neg hnn, if_pos hop]
    rw [bindArrayParams_spec]
    rfl

/-- Witness for claim C7: the theorem applied at a concrete non-array value
and at a concrete two-element array. -/
theorem C7_in_nin_behavior_witness :
    OnComparison (NewSQLFilter NewDefaultSQLParserHookConfig) "age" "_in" (.str "x") [] =
      .error "array value expected, got String" ∧
    OnComparison (NewSQLFilter NewDefaultSQLParserHookConfig) "age" "_in"
        (.arr (.cons (.num 1) (.cons (.num 2) .nil))) [] =
      .ok (addCondition
        { NewSQLFilter NewDefaultSQLParserHookConfig with Params := [.int 1, .int 2], ParamIndex := 3 }
        "\"age\" IN ($1, $2)") :=
  ⟨(C7_in_nin_behavior.1 (NewSQLFilter NewDefaultSQLParserHookConfig) "age" "_in" (.str "x") []
      (Or.inl rfl)).1 (by decide),
   ((C7_in_nin_behavior.1 (NewSQLFilter NewDefaultSQLParserHookConfig) "age" "_in"
      (.arr (.cons (.num 1) (.cons (.num 2) .nil))) [] (Or.inl rfl)).2
      (.cons (.num 1) (.cons (.num 2) .nil)) rfl).trans (by decide)⟩

/-- Claim C8 counterexample: with a caller-supplied operator map from which
`_is_null` is absent (the empty map), the comparison `"age" _is_null true`
does NOT fail with UnsupportedOperator -- it succeeds and renders
`"age" IS NULL`, because `_is_null` (like `_in`/`_nin`) is special-cased
before the map lookup. -/
theorem C8_special_ops_bypass_map_counterexample :
    (Inspect { OperatorMap := [], AggregateFnMap := [], NameDelimiter := "\"" }
        (jobj [("where", jobj [("age", jobj [("_is_null", .bool true)])])])).map whereText =
      .ok "\"age\" IS NULL" := by decide

/-- Claim C8, amended (corrected): for every comparison whose operator is
none of the special-cased `_is_null`, `_in`, `_nin`, an operator key whose
lookup in the active operator map yields the empty string (in particular,
any absent key, for every caller-supplied map) fails with the
unsupported-operator error. -/
theorem C8_unsupported_operator_amended :
    ∀ (st : SQLParseHook) (field op : String) (value : Json) (path : List String),
      op ≠ "_is_null" → op ≠ "_in" → op ≠ "_nin" →
      mapLookup st.Config.OperatorMap op = "" →
      OnComparison st field op value path = .error ("unsupported operator: " ++ op) := by
  intro st field op value path h1 h2 h3 hl
  simp only [OnComparison.eq_def]
  rw [if_neg h1, if_neg (by tauto : ¬(op = "_in" ∨ op = "_nin"))]
  simp [getOperator, hl]

/-- Witness for the amended claim C8: a regular operator absent from an
empty caller-supplied map fails. -/
theorem C8_unsupported_operator_amended_witness :
    OnComparison (NewSQLFilter { OperatorMap := [], AggregateFnMap := [], NameDelimiter := "\"" })
        "age" "_gt" (.num 1) [] = .error "unsupported operator: _gt" :=
  C8_unsupported_operator_amended _ "age" "_gt" (.num 1) []
    (by decide) (by decide) (by decide) (by decide)

/-- Claim C9 (confirmed): an order_by terminal direction string is trimmed
and compared case-insensitively; when it normalizes to ASC or DESC the hook
receives OrderBy with the normalized direction, and any other direction
string makes the traversal fail with the invalid-order-direction error
naming the original string. -/
theorem C9_order_direction :
    ∀ s : String,
      (toUpperString (trimString s) = "ASC" →
        Inspect NewDefaultSQLParserHookConfig (jobj [("order_by", jobj [("name", .str s)])]) =
          .ok { NewSQLFilter NewDefaultSQLParserHookConfig with OrderBy := ["\"name\" ASC"] }) ∧
      (toUpperString (trimString s) = "DESC" →
        Inspect NewDefaultSQLParserHookConfig (jobj [("order_by", jobj [("name", .str s)])]) =
          .ok { NewSQLFilter NewDefaultSQLParserHookConfig with OrderBy := ["\"name\" DESC"] }) ∧
      (toUpperString (trimString s) ≠ "ASC" → toUpperString (trimString s) ≠ "DESC" →
        Inspect NewDefaultSQLParserHookConfig (jobj [("order_by", jobj [("name", .str s)])]) =
          .error ("invalid order_by direction: " ++ s)) := by
  intro s
  have d1 := eq_false (by decide : ¬("order_by" = "where"))
  have d2 := eq_false (by decide : ¬("order_by" = "aggregate"))
  have d3 := eq_false (by decide : ¬(trimString "name" = ""))
  refine ⟨fun h => ?_, fun h => ?_, fun h1 h2 => ?_⟩
  · simp only [Inspect, InspectWith, jobj, JsonObj.ofList, Json.get, JsonObj.lookup,
      processOrderByNode, processOrderByNodeObj, Json.resultStr, getOrderDirection,
      Json.isObject, d1, d2, d3, h, if_false, if_true, ite_true, ite_false, eq_self_iff_true]
    decide
  · have d4 := eq_false (by decide : ¬(("DESC" : String) = "ASC"))
    simp only [Inspect, InspectWith, jobj, JsonObj.ofList, Json.get, JsonObj.lookup,
      processOrderByNode, processOrderByNodeObj, Json.resultStr, getOrderDirection,
      Json.isObject, d1, d2, d3, d4, h, if_false, if_true, ite_true, ite_false, eq_self_iff_true]
    decide
  · have d5 := eq_false h1
    have d6 := eq_false h2
    simp only [Inspect, InspectWith, jobj, JsonObj.ofList, Json.get, JsonObj.lookup,
      processOrderByNode, processOrderByNodeObj, Json.resultStr, getOrderDirection,
      Json.isObject, d1, d2, d3, d5, d6, if_false, if_true, ite_true, ite_false,
      eq_self_iff_true, Bool.false_eq_true]

/-- Witness for claim C9: the theorem applied at the direction strings
`" dEsC "` (normalizing to DESC) and `"sideways"` (failing). -/
theorem C9_order_direction_witness :
    Inspect NewDefaultSQLParserHookConfig (jobj [("order_by", jobj [("name", .str " dEsC ")])]) =
      .ok { NewSQLFilter NewDefaultSQLParserHookConfig with OrderBy := ["\"name\" DESC"] } ∧
    Inspect NewDefaultSQLParserHookConfig (jobj [("order_by", jobj [("name", .str "sideways")])]) =
      .error "invalid order_by direction: sideways" :=
  ⟨(C9_order_direction " dEsC ").2.1 (by decide),
   (C9_order_direction "sideways").2.2 (by decide) (by decide)⟩


/-- `addCondition` leaves Limit/Offset untouched. -/
theorem addCondition_pag (h : SQLParseHook) (c : String) :
    (addCondition h c).Limit = h.Limit ∧ (addCondition h c).Offset = h.Offset := by
  rw [addCondition.eq_def]
  cases h.LogicalStack <;> simp

/-- `OnComparison` leaves Limit/Offset untouched. -/
theorem OnComparison_pag (h : SQLParseHook) (field op : String) (value : Json)
    (path : List String) (h' : SQLParseHook)
    (he : OnComparison h field op value path = .ok h') :
    h'.Limit = h.Limit ∧ h'.Offset = h.Offset := by
  rw [OnComparison.eq_def] at he
  split at he
  · split at he <;>
      (injection he with he; subst he; exact addCondition_pag _ _)
  · split at he
    · split at he
      · next elems =>
        rw [bindArrayParams_spec] at he
        injection he with he
        subst he
        refine ⟨(addCondition_pag _ _).1.trans ?_, (addCondition_pag _ _).2.trans ?_⟩ <;> rfl
      · cases he
    · dsimp only at he
      split at he
      · injection he with he
        subst he
        refine ⟨(addCondition_pag _ _).1.trans ?_, (addCondition_pag _ _).2.trans ?_⟩ <;> rfl
      · cases he

/-- `OnLogicalGroupStart` leaves Limit/Offset untouched. -/
theorem OnLogicalGroupStart_pag (h : SQLParseHook) (op : String) (h' : SQLParseHook)
    (he : OnLogicalGroupStart h op = .ok h') :
    h'.Limit = h.Limit ∧ h'.Offset = h.Offset := by
  rw [OnLogicalGroupStart.eq_def] at he
  split_ifs at he
  all_goals (injection he with he; subst he; exact ⟨rfl, rfl⟩)

/-- `OnLogicalGroupEnd` leaves Limit/Offset untouched. -/
theorem OnLogicalGroupEnd_pag (h : SQLParseHook) :
    (OnLogicalGroupEnd h).Limit = h.Limit ∧ (OnLogicalGroupEnd h).Offset = h.Offset := by
  rw [OnLogicalGroupEnd.eq_def, popLogicalGroup.eq_def]
  cases hls : h.LogicalStack with
  | nil => simp
  | cons g rest =>
    by_cases hops : g.operations = [] <;> simp [hops]
    exact ⟨(addCondition_pag _ _).1.trans rfl, (addCondition_pag _ _).2.trans rfl⟩

/-- `OnAggregateField` leaves Limit/Offset untouched. -/
theorem OnAggregateField_pag (h : SQLParseHook) (function field : String)
    (options : Option Json) (h' : SQLParseHook)
    (he : OnAggregateField h function field options = .ok h') :
    h'.Limit = h.Limit ∧ h'.Offset = h.Offset := by
  rw [OnAggregateField.eq_def] at he
  dsimp only at he
  split at he
  · cases he
  · split at he
    · cases he
    · injection he with he; subst he; exact ⟨rfl, rfl⟩

/-- The aggregate per-field loop leaves Limit/Offset untouched. -/
theorem processAggregateFields_pag (function : String) (options : Option Json) :
    ∀ (fields : List String) (st st' : SQLParseHook),
      processAggregateFields st function fields options = .ok st' →
      st'.Limit = st.Limit ∧ st'.Offset = st.Offset := by
  intro fields
  induction fields with
  | nil =>
    intro st st' he
    rw [processAggregateFields] at he
    injection he with he; subst he; exact ⟨rfl, rfl⟩
  | cons f rest ih =>
    intro st st' he
    rw [processAggregateFields] at he
    cases hf : OnAggregateField st function f options with
    | error e => rw [hf] at he; cases he
    | ok st1 =>
      rw [hf] at he
      have p1 := OnAggregateField_pag st function f options st1 hf
      have p2 := ih st1 st' he
      exact ⟨p2.1.trans p1.1, p2.2.trans p1.2⟩

/-- The aggregate object loop leaves Limit/Offset untouched. -/
theorem processAggregateNodeObj_pag : ∀ (kvs : JsonObj) (st st' : SQLParseHook),
    processAggregateNodeObj st kvs = .ok st' →
    st'.Limit = st.Limit ∧ st'.Offset = st.Offset
  | .nil, st, st', he => by
    rw [processAggregateNodeObj] at he
    injection he with he; subst he; exact ⟨rfl, rfl⟩
  | .cons k value rest, st, st', he => by
    rw [processAggregateNodeObj] at he
    split at he
    · cases he
    · split at he
      · cases he
      · next fs opts hpv =>
        cases hf : processAggregateFields st k fs opts with
        | error e =>
          rw [hf] at he
          cases he
        | ok st1 =>
          rw [hf] at he
          have p1 := processAggregateFields_pag k opts fs st st1 hf
          have p2 := processAggregateNodeObj_pag rest st1 st' he
          exact ⟨p2.1.trans p1.1, p2.2.trans p1.2⟩

/-- `processAggregateNode` leaves Limit/Offset untouched. -/
theorem processAggregateNode_pag (node : Json) (st st' : SQLParseHook)
    (he : processAggregateNode st node = .ok st') :
    st'.Limit = st.Limit ∧ st'.Offset = st.Offset := by
  rw [processAggregateNode.eq_def] at he
  split at he
  · exact processAggregateNodeObj_pag _ _ _ he
  · cases he

mutual

/-- The where traversal leaves Limit/Offset untouched. -/
theorem processWhereNode_pag : ∀ (st : SQLParseHook) (field : String) (node : Json)
    (path : List String) (st' : SQLParseHook),
    processWhereNode st field node path = .ok st' →
    st'.Limit = st.Limit ∧ st'.Offset = st.Offset
  | st, field, .arr xs, path, st', he =>
    processWhereNodeArr_pag st field xs path st' (by rwa [processWhereNode] at he)
  | st, field, .obj kvs, path, st', he =>
    processWhereNodeObj_pag st field kvs path st' (by rwa [processWhereNode] at he)
  | st, field, .null, path, st', he => by simp [processWhereNode] at he
  | st, field, .bool b, path, st', he => by simp [processWhereNode] at he
  | st, field, .num n, path, st', he => by simp [processWhereNode] at he
  | st, field, .str s, path, st', he => by simp [processWhereNode] at he

theorem processWhereNodeArr_pag : ∀ (st : SQLParseHook) (field : String) (xs : JsonArr)
    (path : List String) (st' : SQLParseHook),
    processWhereNodeArr st field xs path = .ok st' →
    st'.Limit = st.Limit ∧ st'.Offset = st.Offset
  | st, field, .nil, path, st', he => by
    rw [processWhereNodeArr] at he
    injection he with he; subst he; exact ⟨rfl, rfl⟩
  | st, field, .cons x rest, path, st', he => by
    rw [processWhereNodeArr] at he
    cases hx : processWhereNode st field x path with
    | error e => rw [hx] at he; cases he
    | ok st1 =>
      rw [hx] at he
      have p1 := processWhereNode_pag st field x path st1 hx
      have p2 := processWhereNodeArr_pag st1 field rest path st' he
      exact ⟨p2.1.trans p1.1, p2.2.trans p1.2⟩

theorem processWhereNodeObj_pag : ∀ (st : SQLParseHook) (field : String) (kvs : JsonObj)
    (path : List String) (st' : SQLParseHook),
    processWhereNodeObj st field kvs path = .ok st' →
    st'.Limit = st.Limit ∧ st'.Offset = st.Offset
  | st, field, .nil, path, st', he => by
    rw [processWhereNodeObj] at he
    injection he with he; subst he; exact ⟨rfl, rfl⟩
  | st, field, .cons key value rest, path, st', he => by
    rw [processWhereNodeObj] at he
    split at he
    · cases he
    · split at he
      · dsimp only at he
        generalize hq : (if path.length > 0 then buildPath path.dropLast [""] else path) = pp at he
        split at he
        · cases hg : OnLogicalGroupStart st key with
          | error e => rw [hg] at he; cases he
          | ok st1 =>
            simp only [hg] at he
            cases hn : processWhereNode st1 field value pp with
            | error e => rw [hn] at he; cases he
            | ok st2 =>
              rw [hn] at he
              have p1 := OnLogicalGroupStart_pag st key st1 hg
              have p2 := processWhereNode_pag st1 field value pp st2 hn
              have p3 := OnLogicalGroupEnd_pag st2
              have p4 := processWhereNodeObj_pag (OnLogicalGroupEnd st2) field rest path st' he
              exact ⟨((p4.1.trans p3.1).trans p2.1).trans p1.1,
                     ((p4.2.trans p3.2).trans p2.2).trans p1.2⟩
        · cases hc : OnComparison st field key value pp with
          | error e => rw [hc] at he; cases he
          | ok st1 =>
            rw [hc] at he
            have p1 := OnComparison_pag st field key value pp st1 hc
            have p2 := processWhereNodeObj_pag st1 field rest path st' he
            exact ⟨p2.1.trans p1.1, p2.2.trans p1.2⟩
      · split at he
        · cases hn : processWhereNode st key value (buildPath path [key]) with
          | error e => rw [hn] at he; cases he
          | ok st1 =>
            rw [hn] at he
            have p1 := processWhereNode_pag st key value _ st1 hn
            have p2 := processWhereNodeObj_pag st1 field rest path st' he
            exact ⟨p2.1.trans p1.1, p2.2.trans p1.2⟩
        · cases hc : (if value = .null then OnComparison st key "_is_null" (.str "true") path
                      else OnComparison st key "_eq" value path) with
          | error e => rw [hc] at he; cases he
          | ok st1 =>
            rw [hc] at he
            have p1 : st1.Limit = st.Limit ∧ st1.Offset = st.Offset := by
              by_cases hv : value = .null
              · rw [if_pos hv] at hc; exact OnComparison_pag _ _ _ _ _ _ hc
              · rw [if_neg hv] at hc; exact OnComparison_pag _ _ _ _ _ _ hc
            have p2 := processWhereNodeObj_pag st1 field rest path st' he
            exact ⟨p2.1.trans p1.1, p2.2.trans p1.2⟩

end

mutual

/-- The order_by traversal leaves Limit/Offset untouched. -/
theorem processOrderByNode_pag : ∀ (st : SQLParseHook) (field : String) (node : Json)
    (path : List String) (st' : SQLParseHook),
    processOrderByNode st field node path = .ok st' →
    st'.Limit = st.Limit ∧ st'.Offset = st.Offset
  | st, field, .arr xs, path, st', he =>
    processOrderByNodeArr_pag st field xs path st' (by rwa [processOrderByNode] at he)
  | st, field, .obj kvs, path, st', he =>
    processOrderByNodeObj_pag st field kvs path st' (by rwa [processOrderByNode] at he)
  | st, field, .null, path, st', he => by simp [processOrderByNode] at he
  | st, field, .bool b, path, st', he => by simp [processOrderByNode] at he
  | st, field, .num n, path, st', he => by simp [processOrderByNode] at he
  | st, field, .str s, path, st', he => by simp [processOrderByNode] at he

theorem processOrderByNodeArr_pag : ∀ (st : SQLParseHook) (field : String) (xs : JsonArr)
    (path : List String) (st' : SQLParseHook),
    processOrderByNodeArr st field xs path = .ok st' →
    st'.Limit = st.Limit ∧ st'.Offset = st.Offset
  | st, field, .nil, path, st', he => by
    rw [processOrderByNodeArr] at he
    injection he with he; subst he; exact ⟨rfl, rfl⟩
  | st, field, .cons x rest, path, st', he => by
    rw [processOrderByNodeArr] at he
    cases hx : processOrderByNode st field x path with
    | error e => rw [hx] at he; cases he
    | ok st1 =>
      rw [hx] at he
      have p1 := processOrderByNode_pag st field x path st1 hx
      have p2 := processOrderByNodeArr_pag st1 field rest path st' he
      exact ⟨p2.1.trans p1.1, p2.2.trans p1.2⟩

theorem processOrderByNodeObj_pag : ∀ (st : SQLParseHook) (field : String) (kvs : JsonObj)
    (path : List String) (st' : SQLParseHook),
    processOrderByNodeObj st field kvs path = .ok st' →
    st'.Limit = st.Limit ∧ st'.Offset = st.Offset
  | st, field, .nil, path, st', he => by
    rw [processOrderByNodeObj] at he
    injection he with he; subst he; exact ⟨rfl, rfl⟩
  | st, field, .cons key value rest, path, st', he => by
    rw [processOrderByNodeObj] at he
    split at he
    · cases he
    · split at he
      · cases hn : processOrderByNode st key value (buildPath path [key]) with
        | error e => rw [hn] at he; cases he
        | ok st1 =>
          rw [hn] at he
          have p1 := processOrderByNode_pag st key value _ st1 hn
          have p2 := processOrderByNodeObj_pag st1 field rest path st' he
          exact ⟨p2.1.trans p1.1, p2.2.trans p1.2⟩
      · cases hd : getOrderDirection value.resultStr with
        | error e => rw [hd] at he; cases he
        | ok direction =>
          rw [hd] at he
          have p2 := processOrderByNodeObj_pag (OnOrderBy st key direction path) field rest path st' he
          exact ⟨p2.1.trans rfl, p2.2.trans rfl⟩

end

/-- `InspectWith` leaves Limit/Offset untouched. -/
theorem InspectWith_pag (st0 : SQLParseHook) (filter : Json) (st : SQLParseHook)
    (he : InspectWith st0 filter = .ok st) :
    st.Limit = st0.Limit ∧ st.Offset = st0.Offset := by
  rw [InspectWith] at he
  cases hs1 : (match filter.get "where" with
               | some w => processWhereNode st0 "" w []
               | none => .ok st0) with
  | error e => rw [hs1] at he; cases he
  | ok st1 =>
    simp only [hs1] at he
    have p1 : st1.Limit = st0.Limit ∧ st1.Offset = st0.Offset := by
      cases hw : filter.get "where" with
      | some w => rw [hw] at hs1; exact processWhereNode_pag _ _ _ _ _ hs1
      | none => rw [hw] at hs1; injection hs1 with hs1; subst hs1; exact ⟨rfl, rfl⟩
    cases hs2 : (match filter.get "aggregate" with
                 | some a => processAggregateNode st1 a
                 | none => .ok st1) with
    | error e => rw [hs2] at he; cases he
    | ok st2 =>
      simp only [hs2] at he
      have p2 : st2.Limit = st1.Limit ∧ st2.Offset = st1.Offset := by
        cases ha : filter.get "aggregate" with
        | some a => rw [ha] at hs2; exact processAggregateNode_pag _ _ _ hs2
        | none => rw [ha] at hs2; injection hs2 with hs2; subst hs2; exact ⟨rfl, rfl⟩
      have p3 : st.Limit = st2.Limit ∧ st.Offset = st2.Offset := by
        cases ho : filter.get "order_by" with
        | some o => rw [ho] at he; exact processOrderByNode_pag _ _ _ _ _ he
        | none => rw [ho] at he; injection he with he; subst he; exact ⟨rfl, rfl⟩
      exact ⟨(p3.1.trans p2.1).trans p1.1, (p3.2.trans p2.2).trans p1.2⟩

/-- Appending bindings whose keys are never looked up does not change a
lookup. -/
theorem lookup_append_none : ∀ (kvs extra : JsonObj) (k : String),
    extra.lookup k = none → (kvs.append extra).lookup k = kvs.lookup k
  | .nil, extra, k, hx => by
    rw [JsonObj.append, hx, JsonObj.lookup]
  | .cons k' v t, extra, k, hx => by
    rw [JsonObj.append, JsonObj.lookup, JsonObj.lookup]
    by_cases hk : k' = k
    · rw [if_pos hk, if_pos hk]
    · rw [if_neg hk, if_neg hk, lookup_append_none t extra k hx]

/-- Claim C10 (confirmed): the inspector reads only the where, aggregate and
order_by sections and never invokes the hook's limit/offset setters, so any
successful Inspect leaves the fresh hook's Limit and Offset fields nil; and
top-level "limit"/"offset" keys appended to any filter object are silently
ignored (the translation is identical with and without them). -/
theorem C10_no_limit_offset :
    (∀ (config : ParseHookConfig) (filter : Json) (st : SQLParseHook),
        Inspect config filter = .ok st → st.Limit = none ∧ st.Offset = none) ∧
    (∀ (config : ParseHookConfig) (kvs : JsonObj) (lv ov : Json),
        Inspect config (.obj (kvs.append (.cons "limit" lv (.cons "offset" ov .nil)))) =
          Inspect config (.obj kvs)) := by
  constructor
  · intro config filter st he
    rw [Inspect] at he
    exact InspectWith_pag _ _ _ he
  · intro config kvs lv ov
    have hx : ∀ k : String, k ≠ "limit" → k ≠ "offset" →
        (JsonObj.cons "limit" lv (JsonObj.cons "offset" ov JsonObj.nil)).lookup k = none := by
      intro k h1 h2
      rw [JsonObj.lookup, if_neg (Ne.symm h1), JsonObj.lookup, if_neg (Ne.symm h2),
        JsonObj.lookup]
    have hw := lookup_append_none kvs _ "where" (hx "where" (by decide) (by decide))
    have ha := lookup_append_none kvs _ "aggregate" (hx "aggregate" (by decide) (by decide))
    have ho := lookup_append_none kvs _ "order_by" (hx "order_by" (by decide) (by decide))
    simp only [Inspect, InspectWith, Json.get, hw, ha, ho]

/-- Witness for claim C10: the theorem applied to a concrete successful
translation. -/
theorem C10_no_limit_offset_witness :
    ({ NewSQLFilter NewDefaultSQLParserHookConfig with
        Conditions := ["\"age\" = $1"], Params := [.int 18], ParamIndex := 2 } : SQLParseHook).Limit = none ∧
    ({ NewSQLFilter NewDefaultSQLParserHookConfig with
        Conditions := ["\"age\" = $1"], Params := [.int 18], ParamIndex := 2 } : SQLParseHook).Offset = none :=
  C10_no_limit_offset.1 NewDefaultSQLParserHookConfig (jobj [("where", jobj [("age", .num 18)])])
    { NewSQLFilter NewDefaultSQLParserHookConfig with
        Conditions := ["\"age\" = $1"], Params := [.int 18], ParamIndex := 2 } (by decide)

end Gosura
